import Mathlib

/-!
Verification of the interactive session controller of `kyc_cli.py`
(class `KYCAgentCLI`): command dispatch, prompt-safety query wrapping,
streaming response rendering with a debug tracer, error classification,
and the main loop with interrupt handling.

The embedding is shallow: Python strings become `String`, the streamed
content blocks become a tagged inductive type, console output becomes an
explicit list of output events, and the `try/finally` disconnect
discipline of `run` becomes post-loop sequencing.  Rendering collaborators
(rich panels, markdown) are modelled at the event level only: we record
*what* is rendered (which panel, with which payload), not the terminal
escape codes.
-/

namespace KYC

/-- Embedding of Python's `str.strip()` whitespace set (ASCII part). -/
def isStripChar (c : Char) : Bool :=
  c = ' ' || c = '\t' || c = '\n' || c = '\r' || c = '\x0b' || c = '\x0c'

/-- Embedding of Python's `user_input.strip()` (kyc_cli.py line 225). -/
def strip (s : String) : String :=
  ⟨((s.toList.dropWhile isStripChar).reverse.dropWhile isStripChar).reverse⟩

/-- Embedding of Python's substring test `pat in s` on lists of characters. -/
def listContains (pat : List Char) : List Char → Bool
  | [] => pat.isEmpty
  | c :: rest => List.isPrefixOf pat (c :: rest) || listContains pat rest

/-- Embedding of Python's `pat in s` for strings (kyc_cli.py line 363). -/
def strContains (s pat : String) : Bool :=
  listContains pat.toList s.toList

/-- The content-block variants the renderer distinguishes
(`TextBlock`, `ToolUseBlock`, `ToolResultBlock`; kyc_cli.py lines 316-345).
`ToolUseBlock.input` is a mapping in the source; only its rendered form
matters to the core, so it is carried as an opaque string payload. -/
inductive ContentBlock where
  | text (t : String)
  | toolUse (name : String) (input : String)
  | toolResult (content : String)
deriving DecidableEq

/-- One streamed message.  `assistant` embeds `AssistantMessage` with its
`content` block list; `other` embeds every other message type in the
stream (user/system/result messages), together with whatever blocks it
carries — the source inspects only `AssistantMessage` (line 313). -/
inductive Message where
  | assistant (content : List ContentBlock)
  | other (content : List ContentBlock)
deriving DecidableEq

/-- A row of the `/list` table (kyc_cli.py line 217). -/
structure ListRow where
  idx : Nat
  name : String
  sizeStr : String
  relDir : String
deriving DecidableEq

/-- One console output event.  Each constructor corresponds to one
`console.print` site in kyc_cli.py, tagged with the data it renders. -/
inductive OutEvent where
  | missingKeyMsg                                -- line 46: ANTHROPIC_API_KEY missing
  | welcome                                      -- line 133: show_welcome
  | startHint                                    -- line 388: "开始对话吧"
  | initSuccess                                  -- line 71: agent ready panel
  | initFailMsg                                  -- line 81: 初始化失败
  | promptShown                                  -- line 394: Prompt.ask of one turn
  | goodbye                                      -- lines 232/409: 再见！
  | helpShown                                    -- show_help output
  | statusShown (active : Bool)                  -- show_status panel
  | clearScreen                                  -- line 256: os.system clear
  | debugToggled (enabled : Bool)                -- line 250: 调试模式已…
  | debugHint                                    -- line 252: extra hint when enabled
  | scanningNote                                 -- line 192: 正在扫描文档目录
  | noDocsFound                                  -- line 198: 未找到任何文档
  | listTable (total : Nat) (rows : List ListRow)  -- lines 201-219
  | processingNote                               -- line 266: 正在处理你的问题
  | toolUsePanel (name : String) (input : String) (count : Nat)  -- lines 322-330
  | toolResultPanel (preview : String) (count : Nat)             -- lines 338-345
  | answerPanel (text : String)                  -- lines 349-353: final answer
  | noTextNotice                                 -- line 355: Agent 没有返回文本响应
  | debugStats (count : Nat)                     -- line 359: 工具调用统计
  | oversizedRemediation                         -- lines 364-371
  | genericRemediation (msg : String)            -- lines 373-374
  | ctrlCHint                                    -- line 403: 按 Ctrl+C 再次退出
  | confirmPrompt                                -- line 405: 确认退出？
  | loopErrorMsg (msg : String)                  -- line 412: 发生错误
  | disconnecting                                -- line 416: 正在断开连接
  | disconnected                                 -- line 418: 连接已断开
deriving DecidableEq

/-- The local accumulation state of `query_agent`'s streaming loop:
`response_text` and `tool_use_count` (kyc_cli.py lines 309-310), plus the
debug-panel output emitted so far. -/
structure StreamAcc where
  response_text : String
  tool_use_count : Nat
  out : List OutEvent
deriving DecidableEq

/-- Embedding of the `ToolResultBlock` preview truncation
(kyc_cli.py lines 334-336): `str(block.content)` truncated to 200
characters plus `"..."` when longer than 200. -/
def result_preview (content : String) : String :=
  if content.length > 200 then (⟨content.toList.take 200⟩ : String) ++ "..." else content

/-- Processing of one content block inside the `async for` loop
(kyc_cli.py lines 314-345), given the debug flag `show_react_steps`. -/
def processBlock (debug : Bool) (acc : StreamAcc) (b : ContentBlock) : StreamAcc :=
  match b with
  | .text t => { acc with response_text := acc.response_text ++ t }
  | .toolUse name input =>
      if debug then
        let c := acc.tool_use_count + 1
        { acc with tool_use_count := c, out := acc.out ++ [.toolUsePanel name input c] }
      else acc
  | .toolResult content =>
      if debug then
        { acc with out := acc.out ++ [.toolResultPanel (result_preview content) acc.tool_use_count] }
      else acc

/-- Processing of one streamed message (kyc_cli.py lines 312-314): only
`AssistantMessage` content is examined. -/
def processMessage (debug : Bool) (acc : StreamAcc) (m : Message) : StreamAcc :=
  match m with
  | .assistant blocks => blocks.foldl (processBlock debug) acc
  | .other _ => acc

/-- The whole streaming loop of `query_agent` for one query: fold over
the delivered messages starting from fresh `response_text = ""`,
`tool_use_count = 0` (kyc_cli.py lines 309-345). -/
def runStream (debug : Bool) (msgs : List Message) : StreamAcc :=
  msgs.foldl (processMessage debug) ⟨"", 0, []⟩

/-- The error classes of the `except` clause of `query_agent`. -/
inductive ErrorClass where
  | oversizedPayload
  | genericQueryFailure
deriving DecidableEq

/-- Embedding of the classification test at kyc_cli.py line 363:
the failure description matches the payload/buffer-too-large signature. -/
def classify_error (e : String) : ErrorClass :=
  if strContains e "exceeded maximum buffer size" || strContains e "JSON message exceeded"
  then .oversizedPayload else .genericQueryFailure

/-- Embedding of `query_agent` (kyc_cli.py lines 263-374) at the level of
rendered events.  `msgs` are the messages delivered before the stream
either completes (`err = none`) or raises a failure with description `e`
(`err = some e`); a failure skips the final rendering and is classified
by the `except` clause, after which the function returns normally. -/
def query_agent (debug : Bool) (msgs : List Message) (err : Option String) : List OutEvent :=
  let acc := runStream debug msgs
  .processingNote ::
    match err with
    | some e =>
        acc.out ++
          (match classify_error e with
            | .oversizedPayload => [.oversizedRemediation]
            | .genericQueryFailure => [.genericRemediation e])
    | none =>
        acc.out ++
          [if acc.response_text ≠ "" then .answerPanel acc.response_text else .noTextNotice] ++
          (if debug && acc.tool_use_count > 0 then [.debugStats acc.tool_use_count] else [])

/-- Round `num / den` to the nearest integer, ties to even — the rounding
Python's `f"{x:.1f}"` applies to the value `x` (for the sizes at hand,
`size / 1024` and `size / 1024²` are exact in double precision, so the
formatted digit string is the correctly rounded decimal of the exact
rational, which this computes). -/
def roundHalfEven (num den : Nat) : Nat :=
  if 2 * (num % den) < den then num / den
  else if den < 2 * (num % den) then num / den + 1
  else if (num / den) % 2 = 0 then num / den else num / den + 1

/-- One-decimal rendering of `num / den`, embedding Python's
`f"{num / den:.1f}"` (kyc_cli.py lines 212, 214). -/
def fmt1 (num den : Nat) : String :=
  let t := roundHalfEven (num * 10) den
  s!"{t / 10}.{t % 10}"

/-- The size-format rule of `list_documents` (kyc_cli.py lines 208-214). -/
def size_str (size : Nat) : String :=
  if size < 1024 then s!"{size} B"
  else if size < 1024 * 1024 then fmt1 size 1024 ++ " KB"
  else fmt1 size (1024 * 1024) ++ " MB"

/-- One discovered file: name, byte size, and directory relative to the
documents root (what `list_documents` reads from the filesystem). -/
structure FileEntry where
  name : String
  size : Nat
  relDir : String
deriving DecidableEq

/-- The row-building loop `for idx, file in enumerate(files, 1)`
(kyc_cli.py lines 207-217). -/
def docRows (idx : Nat) : List FileEntry → List ListRow
  | [] => []
  | f :: rest => ⟨idx, f.name, size_str f.size, f.relDir⟩ :: docRows (idx + 1) rest

/-- Embedding of `list_documents` (kyc_cli.py lines 190-219) given the
files discovered under the documents root, in discovery order.  The
table title carries the total file count (line 201). -/
def list_documents (files : List FileEntry) : List OutEvent :=
  .scanningNote ::
    (if files.isEmpty then [.noDocsFound]
     else [.listTable files.length (docRows 1 files)])

/-- The mutable state of `KYCAgentCLI` the interactive loop touches:
`show_react_steps` (debug flag) and `session_active`. -/
structure CLIState where
  show_react_steps : Bool
  session_active : Bool
deriving DecidableEq

/-- Embedding of `process_command` (kyc_cli.py lines 223-261): strips the
input, dispatches on exact string equality in source order, returns the
updated state, the continue flag (`False` only for quit), and the
rendered events.  A free-text query additionally consumes the stream
outcome `(msgs, err)` of the agent round trip it triggers. -/
def process_command (st : CLIState) (files : List FileEntry) (input : String)
    (msgs : List Message) (err : Option String) : CLIState × Bool × List OutEvent :=
  let s := strip input
  if s = "" then (st, true, [])
  else if s = "/quit" || s = "/exit" || s = "/q" then (st, false, [.goodbye])
  else if s = "/help" then (st, true, [.helpShown])
  else if s = "/list" then (st, true, list_documents files)
  else if s = "/status" then (st, true, [.statusShown st.session_active])
  else if s = "/debug" then
    let enabled := !st.show_react_steps
    ({ st with show_react_steps := enabled }, true,
      .debugToggled enabled :: (if enabled then [.debugHint] else []))
  else if s = "/clear" then (st, true, [.clearScreen])
  else (st, true, query_agent st.show_react_steps msgs err)

/-- Response to the exit-confirmation prompt (kyc_cli.py lines 405-410):
an answer of `y`, the default/explicit `n`, or a second interrupt while
the confirmation prompt is pending. -/
inductive ConfirmResp where
  | yes
  | no
  | interruptAgain
deriving DecidableEq

/-- One turn's worth of external stimulus at the input-wait point: either
a line of input (with the stream outcome the agent produces if the line
becomes a query) or a `KeyboardInterrupt` with the subsequent
confirmation response. -/
inductive TurnEvent where
  | line (input : String) (msgs : List Message) (err : Option String)
  | interrupt (resp : ConfirmResp)
deriving DecidableEq

/-- Result of running the interactive loop over a finite prefix of
stimulus: final state, rendered events, and whether the loop exited via
`break`/quit (`terminated = false` means the model ran out of stimulus
while the loop was still waiting for input). -/
structure LoopResult where
  st : CLIState
  out : List OutEvent
  terminated : Bool
deriving DecidableEq

/-- The `while True` loop of `run` (kyc_cli.py lines 392-410): show the
prompt, read one stimulus, dispatch; a `KeyboardInterrupt` during the
prompt produces the hint plus one confirmation prompt, where `n`
returns to input-wait, and `y` or a second interrupt breaks the loop. -/
def mainLoop (st : CLIState) (files : List FileEntry) : List TurnEvent → LoopResult
  | [] => ⟨st, [], false⟩
  | .line input msgs err :: rest =>
      let r := process_command st files input msgs err
      if r.2.1 then
        let k := mainLoop r.1 files rest
        ⟨k.st, .promptShown :: r.2.2 ++ k.out, k.terminated⟩
      else ⟨r.1, .promptShown :: r.2.2, true⟩
  | .interrupt resp :: rest =>
      match resp with
      | .no =>
          let k := mainLoop st files rest
          ⟨k.st, .promptShown :: .ctrlCHint :: .confirmPrompt :: k.out, k.terminated⟩
      | .yes => ⟨st, [.promptShown, .ctrlCHint, .confirmPrompt], true⟩
      | .interruptAgain => ⟨st, [.promptShown, .ctrlCHint, .confirmPrompt, .goodbye], true⟩

/-- Result of one whole process run: exit status and rendered events. -/
structure RunResult where
  exitCode : Nat
  out : List OutEvent
  terminated : Bool
deriving DecidableEq

/-- Embedding of `run` (kyc_cli.py lines 376-418) plus the exit-status
behavior of `main`: missing `ANTHROPIC_API_KEY` exits 1 before the
welcome text; a failed `connect()` exits 1 after the welcome but before
any interactive prompt; otherwise the loop runs from
`show_react_steps = False`, `session_active = True`, and the `finally`
block disconnects the connected session exactly once after the loop,
with exit status 0 on a normal return. -/
def run (apiKeyPresent : Bool) (connectOk : Bool) (files : List FileEntry)
    (events : List TurnEvent) : RunResult :=
  if !apiKeyPresent then ⟨1, [.missingKeyMsg], true⟩
  else if !connectOk then ⟨1, [.welcome, .initFailMsg], true⟩
  else
    let r := mainLoop ⟨false, true⟩ files events
    ⟨0, [.welcome, .initSuccess, .startHint] ++ r.out ++ [.disconnecting, .disconnected],
      r.terminated⟩

/-! ### Specification-side observations of the stream -/

/-- The text a single content block contributes to the answer buffer. -/
def textOf : ContentBlock → String
  | .text t => t
  | .toolUse _ _ => ""
  | .toolResult _ => ""

/-- Literal concatenation of the text of a block list, in order. -/
def blocksText : List ContentBlock → String
  | [] => ""
  | b :: rest => textOf b ++ blocksText rest

/-- The text one message contributes: its blocks' text for an assistant
message, nothing otherwise. -/
def msgText : Message → String
  | .assistant bs => blocksText bs
  | .other _ => ""

/-- Concatenated text of a whole stream, in arrival order. -/
def msgsText : List Message → String
  | [] => ""
  | m :: rest => msgText m ++ msgsText rest

/-- The texts of the `Text` blocks of a block list, in order. -/
def textsOf : List ContentBlock → List String
  | [] => []
  | .text t :: rest => t :: textsOf rest
  | .toolUse _ _ :: rest => textsOf rest
  | .toolResult _ :: rest => textsOf rest

/-- Literal concatenation `t1 ++ t2 ++ ... ++ tn` of a list of strings. -/
def concatTexts : List String → String
  | [] => ""
  | t :: rest => t ++ concatTexts rest

/-- Whether a block is a `ToolUseBlock`. -/
def isToolUse : ContentBlock → Bool
  | .toolUse _ _ => true
  | _ => false

/-- Number of `ToolUseBlock`s in a block list. -/
def blocksTU : List ContentBlock → Nat
  | [] => 0
  | b :: rest => (if isToolUse b then 1 else 0) + blocksTU rest

/-- Number of `ToolUseBlock`s carried by assistant messages of a stream. -/
def countToolUse : List Message → Nat
  | [] => 0
  | .assistant bs :: rest => blocksTU bs + countToolUse rest
  | .other _ :: rest => countToolUse rest

/-- Whether a message is an `AssistantMessage`. -/
def isAssistant : Message → Bool
  | .assistant _ => true
  | .other _ => false

/-- Events the streaming loop may emit mid-stream (debug panels only). -/
def isPanelEvent : OutEvent → Bool
  | .toolUsePanel _ _ _ => true
  | .toolResultPanel _ _ => true
  | _ => false

/-- Events that render the final answer (answer panel or the explicit
no-text notice). -/
def isFinalEvent : OutEvent → Bool
  | .answerPanel _ => true
  | .noTextNotice => true
  | _ => false

/-- The recognized command tokens of `process_command`. -/
def isCmdToken (s : String) : Bool :=
  s = "/quit" || s = "/exit" || s = "/q" || s = "/help" || s = "/list" ||
    s = "/status" || s = "/debug" || s = "/clear"

/-! ### Lemmas on the streaming fold -/

theorem processBlock_response_text (d : Bool) (acc : StreamAcc) (b : ContentBlock) :
    (processBlock d acc b).response_text = acc.response_text ++ textOf b := by
  cases b <;> simp [processBlock, textOf] <;> split <;> simp

theorem processBlock_count (d : Bool) (acc : StreamAcc) (b : ContentBlock) :
    (processBlock d acc b).tool_use_count =
      acc.tool_use_count + (if d && isToolUse b then 1 else 0) := by
  cases b <;> cases d <;> simp [processBlock, isToolUse]

theorem processBlock_out (d : Bool) (acc : StreamAcc) (b : ContentBlock) :
    ∃ l, (processBlock d acc b).out = acc.out ++ l ∧ ∀ e ∈ l, isPanelEvent e = true := by
  cases b with
  | text t => exact ⟨[], by simp [processBlock], by simp⟩
  | toolUse name input =>
      cases d with
      | false => exact ⟨[], by simp [processBlock], by simp⟩
      | true =>
          exact ⟨[.toolUsePanel name input (acc.tool_use_count + 1)], by simp [processBlock],
            by simp [isPanelEvent]⟩
  | toolResult content =>
      cases d with
      | false => exact ⟨[], by simp [processBlock], by simp⟩
      | true =>
          exact ⟨[.toolResultPanel (result_preview content) acc.tool_use_count],
            by simp [processBlock], by simp [isPanelEvent]⟩

theorem foldlBlocks_response_text (d : Bool) (bs : List ContentBlock) (acc : StreamAcc) :
    (bs.foldl (processBlock d) acc).response_text = acc.response_text ++ blocksText bs := by
  induction bs generalizing acc with
  | nil => simp [blocksText]
  | cons b rest ih =>
      simp [List.foldl, blocksText, ih, processBlock_response_text, String.append_assoc]

theorem foldlBlocks_count (d : Bool) (bs : List ContentBlock) (acc : StreamAcc) :
    (bs.foldl (processBlock d) acc).tool_use_count =
      acc.tool_use_count + (if d then blocksTU bs else 0) := by
  induction bs generalizing acc with
  | nil => simp [blocksTU]
  | cons b rest ih =>
      simp only [List.foldl, ih, processBlock_count, blocksTU]
      cases d <;> cases hb : isToolUse b <;> simp <;> omega

theorem foldlBlocks_out (d : Bool) (bs : List ContentBlock) (acc : StreamAcc) :
    ∃ l, (bs.foldl (processBlock d) acc).out = acc.out ++ l ∧ ∀ e ∈ l, isPanelEvent e = true := by
  induction bs generalizing acc with
  | nil => exact ⟨[], by simp, by simp⟩
  | cons b rest ih =>
      obtain ⟨l₁, h₁, hp₁⟩ := processBlock_out d acc b
      obtain ⟨l₂, h₂, hp₂⟩ := ih (processBlock d acc b)
      refine ⟨l₁ ++ l₂, ?_, ?_⟩
      · simp [List.foldl, h₂, h₁, List.append_assoc]
      · intro e he
        rcases List.mem_append.1 he with h | h
        · exact hp₁ e h
        · exact hp₂ e h

theorem processMessage_response_text (d : Bool) (acc : StreamAcc) (m : Message) :
    (processMessage d acc m).response_text = acc.response_text ++ msgText m := by
  cases m with
  | assistant bs => simpa [processMessage, msgText] using foldlBlocks_response_text d bs acc
  | other bs => simp [processMessage, msgText]

theorem processMessage_count (d : Bool) (acc : StreamAcc) (m : Message) :
    (processMessage d acc m).tool_use_count =
      acc.tool_use_count + (if d then countToolUse [m] else 0) := by
  cases m with
  | assistant bs =>
      simp [processMessage, countToolUse, foldlBlocks_count]
  | other bs => cases d <;> simp [processMessage, countToolUse]

theorem processMessage_out (d : Bool) (acc : StreamAcc) (m : Message) :
    ∃ l, (processMessage d acc m).out = acc.out ++ l ∧ ∀ e ∈ l, isPanelEvent e = true := by
  cases m with
  | assistant bs => exact foldlBlocks_out d bs acc
  | other bs => exact ⟨[], by simp [processMessage], by simp⟩

theorem foldlMsgs_response_text (d : Bool) (msgs : List Message) (acc : StreamAcc) :
    (msgs.foldl (processMessage d) acc).response_text = acc.response_text ++ msgsText msgs := by
  induction msgs generalizing acc with
  | nil => simp [msgsText]
  | cons m rest ih =>
      simp [List.foldl, msgsText, ih, processMessage_response_text, String.append_assoc]

theorem foldlMsgs_count (d : Bool) (msgs : List Message) (acc : StreamAcc) :
    (msgs.foldl (processMessage d) acc).tool_use_count =
      acc.tool_use_count + (if d then countToolUse msgs else 0) := by
  induction msgs generalizing acc with
  | nil => simp [countToolUse]
  | cons m rest ih =>
      simp only [List.foldl, ih, processMessage_count]
      cases m <;> cases d <;> simp [countToolUse] <;> omega

theorem foldlMsgs_out (d : Bool) (msgs : List Message) (acc : StreamAcc) :
    ∃ l, (msgs.foldl (processMessage d) acc).out = acc.out ++ l ∧
      ∀ e ∈ l, isPanelEvent e = true := by
  induction msgs generalizing acc with
  | nil => exact ⟨[], by simp, by simp⟩
  | cons m rest ih =>
      obtain ⟨l₁, h₁, hp₁⟩ := processMessage_out d acc m
      obtain ⟨l₂, h₂, hp₂⟩ := ih (processMessage d acc m)
      refine ⟨l₁ ++ l₂, ?_, ?_⟩
      · simp [List.foldl, h₂, h₁, List.append_assoc]
      · intro e he
        rcases List.mem_append.1 he with h | h
        · exact hp₁ e h
        · exact hp₂ e h

theorem runStream_response_text (d : Bool) (msgs : List Message) :
    (runStream d msgs).response_text = msgsText msgs := by
  simpa [runStream] using foldlMsgs_response_text d msgs ⟨"", 0, []⟩

theorem runStream_count (d : Bool) (msgs : List Message) :
    (runStream d msgs).tool_use_count = if d then countToolUse msgs else 0 := by
  simpa [runStream] using foldlMsgs_count d msgs ⟨"", 0, []⟩

theorem runStream_out_panels (d : Bool) (msgs : List Message) :
    ∀ e ∈ (runStream d msgs).out, isPanelEvent e = true := by
  obtain ⟨l, h, hp⟩ := foldlMsgs_out d msgs ⟨"", 0, []⟩
  intro e he
  rw [runStream] at he
  rw [h] at he
  simpa using hp e (by simpa using he)

theorem processBlock_disabled (acc : StreamAcc) (b : ContentBlock) :
    (processBlock false acc b).out = acc.out ∧
      (processBlock false acc b).tool_use_count = acc.tool_use_count := by
  cases b <;> simp [processBlock]

theorem runStream_out_disabled (msgs : List Message) : (runStream false msgs).out = [] := by
  suffices h : ∀ acc : StreamAcc, (msgs.foldl (processMessage false) acc).out = acc.out by
    simpa [runStream] using h ⟨"", 0, []⟩
  induction msgs with
  | nil => intro acc; rfl
  | cons m rest ih =>
      intro acc
      have hm : (processMessage false acc m).out = acc.out := by
        cases m with
        | assistant bs =>
            induction bs generalizing acc with
            | nil => rfl
            | cons b bs ihb =>
                simpa [processMessage, List.foldl, (processBlock_disabled acc b).1] using
                  ihb (processBlock false acc b)
        | other bs => rfl
      simpa [List.foldl, hm] using ih (processMessage false acc m)

theorem blocksText_append (xs ys : List ContentBlock) :
    blocksText (xs ++ ys) = blocksText xs ++ blocksText ys := by
  induction xs with
  | nil => simp [blocksText]
  | cons b rest ih => simp [blocksText, ih, String.append_assoc]

theorem msgsText_map_assistant (groups : List (List ContentBlock)) :
    msgsText (groups.map Message.assistant) = blocksText groups.flatten := by
  induction groups with
  | nil => rfl
  | cons g rest ih => simp [msgsText, msgText, ih, blocksText_append]

theorem foldlMsgs_filter (d : Bool) (msgs : List Message) (acc : StreamAcc) :
    msgs.foldl (processMessage d) acc =
      (msgs.filter isAssistant).foldl (processMessage d) acc := by
  induction msgs generalizing acc with
  | nil => rfl
  | cons m rest ih =>
      cases m with
      | assistant bs => simp [List.filter_cons, isAssistant, List.foldl, ih]
      | other bs => simp [List.filter_cons, isAssistant, List.foldl, ih, processMessage]

theorem runStream_filter (d : Bool) (msgs : List Message) :
    runStream d msgs = runStream d (msgs.filter isAssistant) := by
  simp [runStream, foldlMsgs_filter]

/-- Dispatch fallback: a non-empty trimmed line matching no command token
is forwarded as a free-text query, leaving the state unchanged and the
loop continuing (kyc_cli.py lines 259-261). -/
theorem process_command_query (st : CLIState) (files : List FileEntry) (s : String)
    (msgs : List Message) (err : Option String)
    (hs : strip s = s) (h1 : s ≠ "") (h2 : isCmdToken s = false) :
    process_command st files s msgs err =
      (st, true, query_agent st.show_react_steps msgs err) := by
  simp only [isCmdToken, Bool.or_eq_false_iff, decide_eq_false_iff_not] at h2
  obtain ⟨⟨⟨⟨⟨⟨⟨hq, he⟩, hsq⟩, hh⟩, hl⟩, hst⟩, hd⟩, hc⟩ := h2
  simp [process_command, hs, h1, hq, he, hsq, hh, hl, hst, hd, hc]

theorem docRows_length (k : Nat) (files : List FileEntry) :
    (docRows k files).length = files.length := by
  induction files generalizing k with
  | nil => rfl
  | cons f rest ih => simp [docRows, ih]

theorem docRows_getElem (k : Nat) (files : List FileEntry) (i : Nat) (h : i < files.length) :
    (docRows k files)[i]? =
      some ⟨k + i, (files.get ⟨i, h⟩).name, size_str (files.get ⟨i, h⟩).size,
        (files.get ⟨i, h⟩).relDir⟩ := by
  induction files generalizing k i with
  | nil => simp at h
  | cons f rest ih =>
      cases i with
      | zero => simp [docRows]
      | succ j =>
          have hj : j < rest.length := by simpa using h
          simpa [docRows, Nat.add_assoc, Nat.add_comm 1 j] using ih (k + 1) j hj

/-- Nearest-tenth bounds for the half-even rounding: the rounded value
`t = roundHalfEven num den` satisfies `|den * t - num| ≤ den / 2`. -/
theorem roundHalfEven_bounds (num den : Nat) (hd : 0 < den) :
    2 * (den * roundHalfEven num den) ≤ 2 * num + den ∧
      2 * num ≤ 2 * (den * roundHalfEven num den) + den := by
  unfold roundHalfEven
  have h1 : den * (num / den) + num % den = num := Nat.div_add_mod num den
  have h2 : num % den < den := Nat.mod_lt _ hd
  have h3 : den * (num / den + 1) = den * (num / den) + den := by ring
  split_ifs <;> omega

theorem isPanelEvent_ne_disconnecting (e : OutEvent) (h : isPanelEvent e = true) :
    e ≠ OutEvent.disconnecting := by
  cases e <;> simp_all [isPanelEvent]

theorem query_agent_no_disc (d : Bool) (msgs : List Message) (err : Option String) :
    ∀ e ∈ query_agent d msgs err, e ≠ OutEvent.disconnecting := by
  intro e he
  cases err with
  | some s =>
      simp only [query_agent, List.mem_cons, List.mem_append] at he
      rcases he with rfl | he | he
      · simp
      · exact isPanelEvent_ne_disconnecting e (runStream_out_panels d msgs e he)
      · cases h : classify_error s <;> rw [h] at he <;> simp at he <;> simp [he]
  | none =>
      simp only [query_agent, List.mem_cons, List.mem_append, List.mem_singleton] at he
      rcases he with rfl | (he | rfl | h0) | he
      · simp
      · exact isPanelEvent_ne_disconnecting e (runStream_out_panels d msgs e he)
      · split <;> simp
      · simp at h0
      · split at he <;> simp at he
        simp [he]

theorem list_documents_no_disc (files : List FileEntry) :
    ∀ e ∈ list_documents files, e ≠ OutEvent.disconnecting := by
  intro e he
  simp only [list_documents, List.mem_cons] at he
  rcases he with he | he
  · simp [he]
  · split at he <;> simp at he <;> simp [he]

theorem mainLoop_cons_line (st : CLIState) (files : List FileEntry) (input : String)
    (msgs : List Message) (err : Option String) (rest : List TurnEvent)
    (h : (process_command st files input msgs err).2.1 = true) :
    mainLoop st files (.line input msgs err :: rest) =
      ⟨(mainLoop (process_command st files input msgs err).1 files rest).st,
        .promptShown :: (process_command st files input msgs err).2.2 ++
          (mainLoop (process_command st files input msgs err).1 files rest).out,
        (mainLoop (process_command st files input msgs err).1 files rest).terminated⟩ := by
  simp [mainLoop, h]

theorem mainLoop_cons_line_stop (st : CLIState) (files : List FileEntry) (input : String)
    (msgs : List Message) (err : Option String) (rest : List TurnEvent)
    (h : (process_command st files input msgs err).2.1 = false) :
    mainLoop st files (.line input msgs err :: rest) =
      ⟨(process_command st files input msgs err).1,
        .promptShown :: (process_command st files input msgs err).2.2, true⟩ := by
  simp [mainLoop, h]

theorem mainLoop_cons_interrupt_no (st : CLIState) (files : List FileEntry)
    (rest : List TurnEvent) :
    mainLoop st files (.interrupt .no :: rest) =
      ⟨(mainLoop st files rest).st,
        .promptShown :: .ctrlCHint :: .confirmPrompt :: (mainLoop st files rest).out,
        (mainLoop st files rest).terminated⟩ := rfl

theorem process_command_no_disc (st : CLIState) (files : List FileEntry) (input : String)
    (msgs : List Message) (err : Option String) :
    ∀ e ∈ (process_command st files input msgs err).2.2, e ≠ OutEvent.disconnecting := by
  intro e he
  simp only [process_command] at he
  split at he
  · simp at he
  · split at he
    · simp at he; simp [he]
    · split at he
      · simp at he; simp [he]
      · split at he
        · exact list_documents_no_disc files e he
        · split at he
          · simp at he; simp [he]
          · split at he
            · simp only [List.mem_cons] at he
              rcases he with he | he
              · simp [he]
              · split at he <;> simp at he <;> simp [he]
            · split at he
              · simp at he; simp [he]
              · exact query_agent_no_disc st.show_react_steps msgs err e he

theorem mainLoop_no_disc (st : CLIState) (files : List FileEntry) (events : List TurnEvent) :
    ∀ e ∈ (mainLoop st files events).out, e ≠ OutEvent.disconnecting := by
  induction events generalizing st with
  | nil => intro e he; simp [mainLoop] at he
  | cons ev rest ih =>
      intro e he
      cases ev with
      | line input msgs err =>
          by_cases hc : (process_command st files input msgs err).2.1 = true
          · rw [mainLoop_cons_line st files input msgs err rest hc] at he
            simp only [List.mem_cons, List.mem_append] at he
            rcases he with (rfl | he) | he
            · simp
            · exact process_command_no_disc st files input msgs err e he
            · exact ih _ e he
          · rw [mainLoop_cons_line_stop st files input msgs err rest
                (Bool.not_eq_true _ ▸ hc)] at he
            simp only [List.mem_cons] at he
            rcases he with rfl | he
            · simp
            · exact process_command_no_disc st files input msgs err e he
      | interrupt resp =>
          cases resp with
          | no =>
              rw [mainLoop_cons_interrupt_no] at he
              simp only [List.mem_cons] at he
              rcases he with rfl | rfl | rfl | he
              · simp
              · simp
              · simp
              · exact ih st e he
          | yes =>
              simp only [mainLoop] at he
              simp at he
              rcases he with rfl | rfl | rfl <;> simp
          | interruptAgain =>
              simp only [mainLoop] at he
              simp at he
              rcases he with rfl | rfl | rfl | rfl <;> simp

theorem panel_not_final (e : OutEvent) (h : isPanelEvent e = true) : isFinalEvent e = false := by
  cases e <;> simp_all [isPanelEvent, isFinalEvent]

theorem blocksText_eq_concatTexts (bs : List ContentBlock) :
    blocksText bs = concatTexts (textsOf bs) := by
  induction bs with
  | nil => rfl
  | cons b rest ih => cases b <;> simp [blocksText, textsOf, concatTexts, textOf, ih]

/-! ### The claims -/

/-- C1: for every finite stream of messages produced by one query, the
final rendered answer equals the literal concatenation, in arrival
order, of the text of every `Text` block across all messages,
independent of how the blocks are grouped into messages (the answer is a
function of the flattened block sequence alone); the answer is rendered
only after the stream completes (every event before it — and after it —
is a non-final event), and if the buffer is empty at completion an
explicit no-textual-response notice is rendered instead. -/
theorem C1_final_answer_is_ordered_concat (debug : Bool) (groups : List (List ContentBlock)) :
    ∃ pre post,
      query_agent debug (groups.map Message.assistant) none =
        pre ++ [if concatTexts (textsOf groups.flatten) = "" then OutEvent.noTextNotice
                else OutEvent.answerPanel (concatTexts (textsOf groups.flatten))] ++ post ∧
      (∀ e ∈ pre, isFinalEvent e = false) ∧
      (∀ e ∈ post, isFinalEvent e = false) := by
  have ht : (runStream debug (groups.map Message.assistant)).response_text =
      concatTexts (textsOf groups.flatten) := by
    rw [runStream_response_text, msgsText_map_assistant, blocksText_eq_concatTexts]
  refine ⟨.processingNote :: (runStream debug (groups.map Message.assistant)).out,
    (if debug && (runStream debug (groups.map Message.assistant)).tool_use_count > 0
      then [.debugStats (runStream debug (groups.map Message.assistant)).tool_use_count]
      else []), ?_, ?_, ?_⟩
  · by_cases h : concatTexts (textsOf groups.flatten) = "" <;>
      simp [query_agent, ht, h]
  · intro e he
    rcases List.mem_cons.1 he with rfl | he
    · rfl
    · exact panel_not_final e (runStream_out_panels debug (groups.map Message.assistant) e he)
  · intro e he
    split at he <;> simp at he
    simp [he, isFinalEvent]

/-- Witness for C1 at a two-message grouping of three blocks. -/
theorem C1_final_answer_is_ordered_concat_witness :
    ∃ pre post,
      query_agent false
          ([[.text "A"], [.toolUse "x" "i", .text "B"]].map Message.assistant) none =
        pre ++ [if concatTexts (textsOf [[ContentBlock.text "A"],
                    [.toolUse "x" "i", .text "B"]].flatten) = "" then OutEvent.noTextNotice
                else OutEvent.answerPanel (concatTexts (textsOf [[ContentBlock.text "A"],
                    [.toolUse "x" "i", .text "B"]].flatten))] ++ post ∧
      (∀ e ∈ pre, isFinalEvent e = false) ∧
      (∀ e ∈ post, isFinalEvent e = false) :=
  C1_final_answer_is_ordered_concat false [[.text "A"], [.toolUse "x" "i", .text "B"]]

/-- C2: the tool-invocation counter of a query starts at 0 (the stream
fold starts from a fresh accumulator) and at completion equals the
number of `ToolUseBlock`s processed while debug mode is enabled; while
debug is disabled the stream produces no rendering side effect and the
counter stays 0; the statistics line, when rendered, reports exactly
this query's count. -/
theorem C2_invocation_counter (debug : Bool) (msgs : List Message) :
    (runStream debug msgs).tool_use_count = (if debug then countToolUse msgs else 0) ∧
    (runStream false msgs).out = [] ∧
    (∀ n, OutEvent.debugStats n ∈ query_agent debug msgs none →
      debug = true ∧ n = countToolUse msgs) := by
  refine ⟨runStream_count debug msgs, runStream_out_disabled msgs, ?_⟩
  intro n hn
  simp only [query_agent, List.mem_cons, List.mem_append, List.mem_singleton] at hn
  rcases hn with h | (h | h | h0) | h
  · simp at h
  · have hp := runStream_out_panels debug msgs _ h
    simp [isPanelEvent] at hp
  · revert h
    split <;> intro h <;> simp at h
  · simp at h0
  · split at h
    · rename_i hc
      simp only [List.mem_singleton, OutEvent.debugStats.injEq] at h
      obtain ⟨hd, -⟩ : debug = true ∧ (decide ((runStream debug msgs).tool_use_count > 0)) = true := by
        simpa using hc
      subst hd
      rw [h, runStream_count]
      simp
    · simp at h

/-- C3: for every `ToolResult` content string of length `L`, the rendered
preview string has length exactly `min L 200` plus the length of the
fixed ellipsis marker when `L > 200`, and is the content itself (length
exactly `L`) when `L ≤ 200`; the accumulated answer buffer is never
truncated — it is always the full concatenated stream text. -/
theorem C3_preview_truncation (content : String) :
    (content.length ≤ 200 → result_preview content = content) ∧
    (200 < content.length →
      (result_preview content).length = min content.length 200 + "...".length) ∧
    (∀ debug msgs, (runStream debug msgs).response_text = msgsText msgs) := by
  refine ⟨?_, ?_, fun debug msgs => runStream_response_text debug msgs⟩
  · intro h
    simp [result_preview, Nat.not_lt.2 h]
  · intro h
    rw [result_preview, if_pos h, String.length_append]
    have h1 : (⟨content.toList.take 200⟩ : String).length = 200 := by
      rw [String.length_mk, List.length_take]
      have : content.toList.length = content.length := rfl
      omega
    have h2 : min content.length 200 = 200 := by omega
    rw [h1, h2]

/-- Witness for C2 at a one-message stream with a single tool use. -/
theorem C2_invocation_counter_witness :
    (runStream true [.assistant [.toolUse "ls" "-lh"]]).tool_use_count =
        (if true then countToolUse [.assistant [.toolUse "ls" "-lh"]] else 0) ∧
      (true = true ∧ 1 = countToolUse [Message.assistant [.toolUse "ls" "-lh"]]) :=
  ⟨(C2_invocation_counter true [.assistant [.toolUse "ls" "-lh"]]).1,
    (C2_invocation_counter true [.assistant [.toolUse "ls" "-lh"]]).2.2 1 (by decide)⟩

set_option maxRecDepth 10000 in
/-- Witness for C3 at a short content string and at a 300-character one. -/
theorem C3_preview_truncation_witness :
    result_preview "ok" = "ok" ∧
      (result_preview ⟨List.replicate 300 'y'⟩).length =
        min (⟨List.replicate 300 'y'⟩ : String).length 200 + "...".length :=
  ⟨(C3_preview_truncation "ok").1 (by decide),
    (C3_preview_truncation ⟨List.replicate 300 'y'⟩).2.1 (by decide)⟩

/-- C4: a failure raised during query issuance or stream consumption is
classified by substring match against the payload/buffer-too-large
signature — `OversizedPayload` with its specific remediation, rendered
last, otherwise the generic remediation; in both cases `process_command`
returns with the continue flag set and the state unchanged, so the loop
proceeds to the next turn exactly as it would from the same state. -/
theorem C4_error_classification_recovery (st : CLIState) (files : List FileEntry) (q : String)
    (msgs : List Message) (e : String) (rest : List TurnEvent)
    (hq : strip q = q) (h1 : q ≠ "") (h2 : isCmdToken q = false) :
    classify_error e =
      (if strContains e "exceeded maximum buffer size" || strContains e "JSON message exceeded"
        then .oversizedPayload else .genericQueryFailure) ∧
    (query_agent st.show_react_steps msgs (some e)).getLast? =
      some (match classify_error e with
            | .oversizedPayload => OutEvent.oversizedRemediation
            | .genericQueryFailure => OutEvent.genericRemediation e) ∧
    process_command st files q msgs (some e) =
      (st, true, query_agent st.show_react_steps msgs (some e)) ∧
    mainLoop st files (.line q msgs (some e) :: rest) =
      ⟨(mainLoop st files rest).st,
        .promptShown :: query_agent st.show_react_steps msgs (some e) ++
          (mainLoop st files rest).out,
        (mainLoop st files rest).terminated⟩ := by
  have hpc := process_command_query st files q msgs (some e) hq h1 h2
  have h21 : (process_command st files q msgs (some e)).2.1 = true := by rw [hpc]
  refine ⟨rfl, ?_, hpc, ?_⟩
  · cases h : classify_error e <;>
      · simp only [query_agent, h]
        rw [← List.cons_append]
        exact List.getLast?_concat _
  · rw [mainLoop_cons_line st files q msgs (some e) rest h21, hpc]

/-- Witness for C4: an oversized-signature failure on a free-text query
leaves state and continue flag intact, and a subsequent query turn is
processed normally (the loop output contains its answer). -/
theorem C4_error_classification_recovery_witness :
    process_command ⟨false, true⟩ [] "analyse the docs" []
        (some "JSON message exceeded maximum buffer size") =
      (⟨false, true⟩, true,
        query_agent false [] (some "JSON message exceeded maximum buffer size")) ∧
    OutEvent.answerPanel "hi" ∈
      (mainLoop ⟨false, true⟩ []
        [.line "analyse the docs" [] (some "JSON message exceeded maximum buffer size"),
         .line "next question" [.assistant [.text "hi"]] none,
         .line "/quit" [] none]).out :=
  ⟨(C4_error_classification_recovery ⟨false, true⟩ [] "analyse the docs" []
      "JSON message exceeded maximum buffer size" [] (by decide) (by decide) (by decide)).2.2.1,
    by decide⟩

/-- C5: dispatch matches the trimmed input by exact, case-sensitive
equality against the recognized tokens; each token triggers its local
effect (`/quit`, `/exit`, `/q` stop the loop); any non-empty trimmed
line matching no token — including lines merely starting with `/` — is
forwarded as a free-text query with state unchanged; a line whose
trimmed form is empty is a no-op that keeps state and continues. -/
theorem C5_dispatch_exact_match (st : CLIState) (files : List FileEntry) (msgs : List Message)
    (err : Option String) :
    (∀ input, strip input = "" → process_command st files input msgs err = (st, true, [])) ∧
    (∀ t, (t = "/quit" ∨ t = "/exit" ∨ t = "/q") →
      process_command st files t msgs err = (st, false, [.goodbye])) ∧
    process_command st files "/help" msgs err = (st, true, [.helpShown]) ∧
    process_command st files "/list" msgs err = (st, true, list_documents files) ∧
    process_command st files "/status" msgs err = (st, true, [.statusShown st.session_active]) ∧
    process_command st files "/debug" msgs err =
      ({ st with show_react_steps := !st.show_react_steps }, true,
        .debugToggled (!st.show_react_steps) ::
          (if !st.show_react_steps then [.debugHint] else [])) ∧
    process_command st files "/clear" msgs err = (st, true, [.clearScreen]) ∧
    (∀ s, strip s = s → s ≠ "" → isCmdToken s = false →
      process_command st files s msgs err =
        (st, true, query_agent st.show_react_steps msgs err)) := by
  refine ⟨?_, ?_, rfl, rfl, rfl, rfl, rfl,
    fun s hs h1 h2 => process_command_query st files s msgs err hs h1 h2⟩
  · intro input h
    simp [process_command, h]
  · intro t ht
    rcases ht with rfl | rfl | rfl <;> rfl

/-- Witness for C5: a blank line is a no-op, and `/Help` (wrong case) is
forwarded as a free-text query, not matched as a command. -/
theorem C5_dispatch_exact_match_witness :
    process_command ⟨true, true⟩ [] "   " [] none = (⟨true, true⟩, true, []) ∧
    process_command ⟨true, true⟩ [] "/Help" [] none =
      (⟨true, true⟩, true, query_agent true [] none) :=
  ⟨(C5_dispatch_exact_match ⟨true, true⟩ [] [] none).1 "   " (by decide),
    (C5_dispatch_exact_match ⟨true, true⟩ [] [] none).2.2.2.2.2.2.2 "/Help"
      (by decide) (by decide) (by decide)⟩

/-- C6: the process exits 0 on a normal quit; it exits 1 when the
credential environment variable is absent (no welcome and no prompt
emitted) or when the initial connect fails (welcome emitted, but exit
happens before any interactive prompt). -/
theorem C6_exit_codes (connectOk : Bool) (files : List FileEntry) (events : List TurnEvent) :
    (run false connectOk files events = ⟨1, [.missingKeyMsg], true⟩ ∧
      OutEvent.welcome ∉ (run false connectOk files events).out ∧
      OutEvent.promptShown ∉ (run false connectOk files events).out) ∧
    ((run true false files events).exitCode = 1 ∧
      OutEvent.promptShown ∉ (run true false files events).out) ∧
    ((mainLoop ⟨false, true⟩ files events).terminated = true →
      (run true true files events).exitCode = 0) := by
  refine ⟨⟨rfl, by simp [run], by simp [run]⟩, ⟨rfl, by simp [run]⟩, fun _ => rfl⟩

/-- Witness for C6: a session that quits normally exits with status 0. -/
theorem C6_exit_codes_witness :
    (run true true [] [.line "/quit" [] none]).exitCode = 0 :=
  (C6_exit_codes true [] [.line "/quit" [] none]).2.2 (by decide)


/-- C7: a single interrupt while waiting for input produces exactly one
confirmation prompt; answering `n` returns to the input-wait state and
the subsequent stimulus is processed from the same state; answering `y`
or a second interrupt while the confirmation is pending terminates the
loop; and on every terminating exit path of the loop, `disconnect()`
runs exactly once on the connected session, after the loop's output and
before process termination. -/
theorem C7_interrupt_and_disconnect (st : CLIState) (files : List FileEntry)
    (rest : List TurnEvent) :
    mainLoop st files (.interrupt .no :: rest) =
      ⟨(mainLoop st files rest).st,
        .promptShown :: .ctrlCHint :: .confirmPrompt :: (mainLoop st files rest).out,
        (mainLoop st files rest).terminated⟩ ∧
    mainLoop st files (.interrupt .yes :: rest) =
      ⟨st, [.promptShown, .ctrlCHint, .confirmPrompt], true⟩ ∧
    mainLoop st files (.interrupt .interruptAgain :: rest) =
      ⟨st, [.promptShown, .ctrlCHint, .confirmPrompt, .goodbye], true⟩ ∧
    [OutEvent.promptShown, OutEvent.ctrlCHint, OutEvent.confirmPrompt].countP
      (fun x => decide (x = OutEvent.confirmPrompt)) = 1 ∧
    (∀ events, (mainLoop ⟨false, true⟩ files events).terminated = true →
      (run true true files events).out.countP
          (fun x => decide (x = OutEvent.disconnecting)) = 1 ∧
        ∃ pre, (run true true files events).out = pre ++ [.disconnecting, .disconnected]) := by
  refine ⟨rfl, rfl, rfl, rfl, ?_⟩
  intro events _
  constructor
  · have hloop : (mainLoop ⟨false, true⟩ files events).out.countP
        (fun x => decide (x = OutEvent.disconnecting)) = 0 := by
      rw [List.countP_eq_zero]
      intro e he
      simpa using mainLoop_no_disc ⟨false, true⟩ files events e he
    simp [run, List.countP_append, hloop, List.countP_cons]
  · exact ⟨[.welcome, .initSuccess, .startHint] ++ (mainLoop ⟨false, true⟩ files events).out,
      by simp [run]⟩

/-- Witness for C7: confirming exit with `y` terminates the loop and the
run disconnects exactly once. -/
theorem C7_interrupt_and_disconnect_witness :
    mainLoop ⟨false, true⟩ [] [.interrupt .yes] =
      ⟨⟨false, true⟩, [.promptShown, .ctrlCHint, .confirmPrompt], true⟩ ∧
    (run true true [] [.interrupt .yes]).out.countP
      (fun x => decide (x = OutEvent.disconnecting)) = 1 :=
  ⟨(C7_interrupt_and_disconnect ⟨false, true⟩ [] []).2.1,
    ((C7_interrupt_and_disconnect ⟨false, true⟩ [] []).2.2.2.2 [.interrupt .yes] (by decide)).1⟩

/-- C8: applying the `/debug` toggle twice restores the whole state —
in particular the debug-enabled flag — to its prior value; a single
toggle negates the flag, and the loop continues in both cases. -/
theorem C8_debug_toggle_involutive (st : CLIState) (files : List FileEntry)
    (msgs : List Message) (err : Option String) :
    (process_command (process_command st files "/debug" msgs err).1 files "/debug" msgs err).1 =
      st ∧
    (process_command st files "/debug" msgs err).1.show_react_steps = !st.show_react_steps ∧
    (process_command st files "/debug" msgs err).2.1 = true := by
  refine ⟨?_, rfl, rfl⟩
  cases st with
  | mk b a => cases b <;> rfl

/-- C9: the `/list` size column shows the byte count with a `B` suffix
below 1024 bytes, the size divided by 1024 rendered with one decimal and
a `KB` suffix below 1024², and the size divided by 1024² with one
decimal and an `MB` suffix above (the displayed tenths value `t` is the
correctly rounded quotient: `|den·t − 10·size| ≤ den/2`); rows appear in
discovery order with 1-based indices, and the table header carries the
total file count. -/
theorem C9_list_size_format :
    (list_documents [⟨"scan.txt", 500, "."⟩, ⟨"report.xlsx", 2048, "."⟩,
        ⟨"cert.pdf", 1048576, "certs"⟩] =
      [.scanningNote, .listTable 3
        [⟨1, "scan.txt", "500 B", "."⟩, ⟨2, "report.xlsx", "2.0 KB", "."⟩,
          ⟨3, "cert.pdf", "1.0 MB", "certs"⟩]]) ∧
    (∀ n, n < 1024 → size_str n = toString n ++ " B") ∧
    (∀ n, 1024 ≤ n → n < 1024 * 1024 → ∃ t,
      size_str n = s!"{t / 10}.{t % 10}" ++ " KB" ∧
      2 * (1024 * t) ≤ 2 * (n * 10) + 1024 ∧ 2 * (n * 10) ≤ 2 * (1024 * t) + 1024) ∧
    (∀ n, 1024 * 1024 ≤ n → ∃ t,
      size_str n = s!"{t / 10}.{t % 10}" ++ " MB" ∧
      2 * (1024 * 1024 * t) ≤ 2 * (n * 10) + 1024 * 1024 ∧
      2 * (n * 10) ≤ 2 * (1024 * 1024 * t) + 1024 * 1024) ∧
    (∀ files : List FileEntry, files ≠ [] →
      list_documents files = [.scanningNote, .listTable files.length (docRows 1 files)] ∧
      (docRows 1 files).length = files.length ∧
      (∀ i (h : i < files.length), (docRows 1 files)[i]? =
        some ⟨i + 1, (files.get ⟨i, h⟩).name, size_str (files.get ⟨i, h⟩).size,
          (files.get ⟨i, h⟩).relDir⟩)) := by
  refine ⟨by decide, ?_, ?_, ?_, ?_⟩
  · intro n h
    rw [size_str, if_pos h]
    rfl
  · intro n h1 h2
    refine ⟨roundHalfEven (n * 10) 1024, ?_, ?_, ?_⟩
    · rw [size_str, if_neg (by omega), if_pos h2]
      rfl
    · exact (roundHalfEven_bounds (n * 10) 1024 (by norm_num)).1
    · exact (roundHalfEven_bounds (n * 10) 1024 (by norm_num)).2
  · intro n h1
    refine ⟨roundHalfEven (n * 10) (1024 * 1024), ?_, ?_, ?_⟩
    · rw [size_str, if_neg (by omega), if_neg (by omega)]
      rfl
    · exact (roundHalfEven_bounds (n * 10) (1024 * 1024) (by norm_num)).1
    · exact (roundHalfEven_bounds (n * 10) (1024 * 1024) (by norm_num)).2
  · intro files hne
    refine ⟨?_, docRows_length 1 files,
      fun i h => by simpa [Nat.add_comm] using docRows_getElem 1 files i h⟩
    rw [list_documents, if_neg (by simpa [List.isEmpty_iff] using hne)]

/-- Witness for C9: the KB clause at 2048 bytes. -/
theorem C9_list_size_format_witness :
    ∃ t, size_str 2048 = s!"{t / 10}.{t % 10}" ++ " KB" ∧
      2 * (1024 * t) ≤ 2 * (2048 * 10) + 1024 ∧ 2 * (2048 * 10) ≤ 2 * (1024 * t) + 1024 :=
  C9_list_size_format.2.2.1 2048 (by decide) (by decide)

/-- C10: during stream consumption only `AssistantMessage`s are
examined: the whole rendering of a query — answer buffer, tool previews,
counter, final panel — is unchanged if all non-assistant messages are
dropped from the stream, and processing a non-assistant message leaves
the accumulator untouched whatever content blocks it carries. -/
theorem C10_only_assistant_messages (debug : Bool) (msgs : List Message) (err : Option String) :
    query_agent debug msgs err = query_agent debug (msgs.filter isAssistant) err ∧
    (∀ acc bs, processMessage debug acc (.other bs) = acc) := by
  refine ⟨?_, fun acc bs => rfl⟩
  simp only [query_agent]
  rw [runStream_filter]


/-- Witness for C8: a double toggle from the initial state restores it. -/
theorem C8_debug_toggle_involutive_witness :
    (process_command (process_command ⟨false, true⟩ [] "/debug" [] none).1 []
        "/debug" [] none).1 = (⟨false, true⟩ : CLIState) :=
  (C8_debug_toggle_involutive ⟨false, true⟩ [] [] none).1

/-- Witness for C10: dropping a non-assistant message carrying a Text
block does not change the rendering of a concrete query. -/
theorem C10_only_assistant_messages_witness :
    query_agent true [.other [.text "spam"], .assistant [.text "ok"]] none =
      query_agent true
        ([Message.other [.text "spam"], .assistant [.text "ok"]].filter isAssistant) none :=
  (C10_only_assistant_messages true [.other [.text "spam"], .assistant [.text "ok"]] none).1

end KYC
